import Mathlib

/-!
# Verification of the `modelcheck` randomized model checker

Shallow embedding of `src/lib.rs`. The Rust code runs a user-supplied state
machine (`ModelState`) on randomly generated step sequences, catches panics
raised by the user's `step` function, truncates the failing sequence and
greedily minimizes it by a single left-to-right removal pass.

Modelling choices, matching the source:
* A panic raised by the user's `step` is the only fallible event the engine
  reacts to; we embed `M::step` as `S → T → Except Payload S`, where
  `Payload` models the `Box<dyn Any + Send>` panic payload as seen by
  `extract_panic_payload` (a `&str`, a `String`, or anything else).
* `Clone` on state/step values is the identity on pure Lean values.
* Engine-side panics (the `assert!(!steps.is_empty())` in `run` and the
  out-of-bounds panic of `Vec::remove`) are modelled by `Option`: a `none`
  result of `run` is an engine panic, `some` is the value `run` returns.
* The pseudorandom generator is abstracted as a state-passing pair of
  generation functions (`Rng`); `runSession` performs the generation exactly
  as `ModelChecker::run` does before the first trial.
-/

namespace ModelCheck

/-- The panic payload as `ModelChecker::extract_panic_payload` distinguishes
it: a `&str` payload, a `String` payload, or any other `Box<dyn Any>`. -/
inductive Payload where
  | str : String → Payload
  | string : String → Payload
  | other : Payload
deriving DecidableEq, Repr

/-- `ModelChecker::extract_panic_payload`: downcast to `&str`, then to
`String`, else a fixed placeholder. -/
def extract_panic_payload : Payload → String
  | Payload.str s => s
  | Payload.string s => s
  | Payload.other => "UNABLE TO SHOW RESULT OF PANIC."

/-- The `ModelState` trait: a state type `S`, a step type `T` and the
mutating `step` function. A panic inside `step` is an `Except.error`
carrying the panic payload. -/
structure Model (S T : Type) where
  step : S → T → Except Payload S

/-- The `FailedState` struct returned in `Err` by `ModelChecker::run`. -/
structure FailedState (S T : Type) where
  state : S
  steps : List T
  error : String
deriving Repr

/-- The loop body of `ModelChecker::run_steps`: apply the steps in order,
incrementing `last_step` before each application (so on a panic the recorded
count includes the failing step). -/
def runStepsFrom {S T : Type} (m : Model S T) : S → List T → Nat → Except (String × Nat) Unit
  | _, [], _ => Except.ok ()
  | s, t :: rest, n =>
    match m.step s t with
    | Except.ok s2 => runStepsFrom m s2 rest (n + 1)
    | Except.error p => Except.error (extract_panic_payload p, n + 1)

/-- `ModelChecker::run_steps`: run a sequence against a state, catching the
first panic; on a panic return the extracted message and the 1-based count
of applied steps including the failing one. -/
def run_steps {S T : Type} (m : Model S T) (s : S) (l : List T) : Except (String × Nat) Unit :=
  runStepsFrom m s l 0

/-- The mutable locals of the shrink loop in `ModelChecker::run`:
the cursor `index`, the working sequence `steps` and `last_error`. -/
structure ShrinkState (T : Type) where
  index : Nat
  steps : List T
  last_error : String
deriving Repr

/-- `Vec::remove(i)`: removes and shifts left; panics (`none`) when `i` is
out of bounds. -/
def vecRemove {α : Type} (l : List α) (i : Nat) : Option (List α) :=
  if i < l.length then some (l.eraseIdx i) else none

/-- One iteration of the shrink loop in `ModelChecker::run`: clone the
working sequence, remove the element at the cursor, re-run the trial; on
success advance the cursor, on failure adopt the candidate and its error. -/
def shrinkIter {S T : Type} (m : Model S T) (s : S) (st : ShrinkState T) :
    Option (ShrinkState T) :=
  match vecRemove st.steps st.index with
  | none => none
  | some cand =>
    match run_steps m s cand with
    | Except.ok _ => some ⟨st.index + 1, st.steps, st.last_error⟩
    | Except.error (e, _) => some ⟨st.index, cand, e⟩

/-- The shrink loop of `ModelChecker::run`: `for _ in 0..steps.len()` — the
iteration count is fixed up front and not recomputed as the sequence
shrinks. -/
def shrinkLoop {S T : Type} (m : Model S T) (s : S) : Nat → ShrinkState T → Option (ShrinkState T)
  | 0, st => some st
  | n + 1, st =>
    match shrinkIter m s st with
    | none => none
    | some st2 => shrinkLoop m s n st2

/-- The body of `ModelChecker::run` after generation: first trial on the
full candidate sequence; on failure truncate to `failed_step + 1` elements
(`Vec::truncate` = `List.take`), assert non-emptiness, run the shrink loop,
and return the `FailedState`. `none` models an engine-side panic. -/
def run {S T : Type} (m : Model S T) (state : S) (steps0 : List T) :
    Option (Except (FailedState S T) Unit) :=
  match run_steps m state steps0 with
  | Except.ok _ => some (Except.ok ())
  | Except.error (e, failed_step) =>
    if (steps0.take (failed_step + 1)).isEmpty then none
    else
      match shrinkLoop m state (steps0.take (failed_step + 1)).length
          ⟨0, steps0.take (failed_step + 1), e⟩ with
      | none => none
      | some st => some (Except.error ⟨state, st.steps, st.last_error⟩)

/-- The `Arbitrary` capability over an abstract generator state `σ`:
`M::gen` and `M::Step::gen` as state-passing functions. -/
structure Rng (σ S T : Type) where
  genState : σ → S × σ
  genStep : σ → T × σ

/-- `(0..max_steps).map(|_| M::Step::gen(&mut self.rng)).collect()`. -/
def genSteps {σ T : Type} (g : σ → T × σ) : Nat → σ → List T × σ
  | 0, r => ([], r)
  | n + 1, r =>
    let tr := g r
    let rest := genSteps g n tr.2
    (tr.1 :: rest.1, rest.2)

/-- `ModelChecker::run` including generation: generate the initial state and
`max_steps` steps from the generator, then run the session body. -/
def runSession {σ S T : Type} (m : Model S T) (rg : Rng σ S T) (r : σ) (max_steps : Nat) :
    Option (Except (FailedState S T) Unit) × σ :=
  let sr := rg.genState r
  let tr := genSteps rg.genStep max_steps sr.2
  (run m sr.1 tr.1, tr.2)

/-- Whether a trial of `l` from `s` fails (`run_steps` returns `Err`). -/
def trialFails {S T : Type} (m : Model S T) (s : S) (l : List T) : Bool :=
  match run_steps m s l with
  | Except.ok _ => false
  | Except.error _ => true

/-- `msg` is the extracted payload of a panic that the model's `step`
function actually raises on some state and step. -/
def IsStepError {S T : Type} (m : Model S T) (msg : String) : Prop :=
  ∃ s t p, m.step s t = Except.error p ∧ msg = extract_panic_payload p

/-- Ghost instrumentation of `run`: identical control flow, additionally
counting how many times `run_steps` is invoked during the session. -/
def shrinkLoopC {S T : Type} (m : Model S T) (s : S) :
    Nat → ShrinkState T → Nat → Option (ShrinkState T × Nat)
  | 0, st, c => some (st, c)
  | n + 1, st, c =>
    match vecRemove st.steps st.index with
    | none => none
    | some cand =>
      match run_steps m s cand with
      | Except.ok _ => shrinkLoopC m s n ⟨st.index + 1, st.steps, st.last_error⟩ (c + 1)
      | Except.error (e, _) => shrinkLoopC m s n ⟨st.index, cand, e⟩ (c + 1)

/-- `run` instrumented with a counter of `run_steps` invocations. -/
def runC {S T : Type} (m : Model S T) (s : S) (l : List T) :
    Option (Except (FailedState S T) Unit × Nat) :=
  match run_steps m s l with
  | Except.ok _ => some (Except.ok (), 1)
  | Except.error (e, failed_step) =>
    if (l.take (failed_step + 1)).isEmpty then none
    else
      match shrinkLoopC m s (l.take (failed_step + 1)).length
          ⟨0, l.take (failed_step + 1), e⟩ 1 with
      | none => none
      | some (st, c) => some (Except.error ⟨s, st.steps, st.last_error⟩, c)

/-- The `TestModel` of the crate's test: unit state, boolean steps, and
`step` = `assert!(step.0)`, which panics with the `&str` payload
`"assertion failed: step.0"` when the boolean is false. -/
def testModel : Model Unit Bool :=
  ⟨fun _ b => if b then Except.ok () else Except.error (Payload.str "assertion failed: step.0")⟩

/-- A model whose `step` panics with a payload that is neither a `&str` nor
a `String` (e.g. `panic_any(0)`). -/
def otherPanicModel : Model Unit Bool :=
  ⟨fun _ b => if b then Except.ok () else Except.error Payload.other⟩

/-- A model over accumulated step lists that panics exactly when the
accumulated sequence becomes `[0]` or `[1]`. Used to exhibit the actual
truncation behaviour of `run`. -/
def badModel2 : Model (List Nat) Nat :=
  ⟨fun acc t =>
    if acc ++ [t] = [0] ∨ acc ++ [t] = [1] then Except.error (Payload.str "bad")
    else Except.ok (acc ++ [t])⟩

/-- A model over accumulated step lists that panics exactly when the
accumulated sequence becomes `[0, 1, 2]`, `[0, 2]` or `[2]`. Used to show
the shrink pass is not a fixed point. -/
def badModel3 : Model (List Nat) Nat :=
  ⟨fun acc t =>
    if acc ++ [t] = [0, 1, 2] ∨ acc ++ [t] = [0, 2] ∨ acc ++ [t] = [2] then
      Except.error (Payload.str "bad")
    else Except.ok (acc ++ [t])⟩

/-! ## Lemmas about `run_steps` -/

/-- On an error, the reported count is between 1 and the sequence length
(relative to the starting counter `n`). -/
theorem runStepsFrom_error_bounds {S T : Type} (m : Model S T) :
    ∀ (l : List T) (s : S) (n k : Nat) (e : String),
      runStepsFrom m s l n = Except.error (e, k) → n + 1 ≤ k ∧ k ≤ n + l.length := by
  intro l
  induction l with
  | nil => intro s n k e h; simp [runStepsFrom] at h
  | cons t rest ih =>
    intro s n k e h
    simp only [runStepsFrom] at h
    cases hs : m.step s t with
    | ok s2 =>
      rw [hs] at h
      have hb := ih s2 (n + 1) k e h
      simp only [List.length_cons]
      omega
    | error p =>
      rw [hs] at h
      simp only [Except.error.injEq, Prod.mk.injEq] at h
      simp only [List.length_cons]
      omega

/-- A failing run also fails, with the same message and count, on any
`take j` of the sequence that still contains the failing step. -/
theorem runStepsFrom_take {S T : Type} (m : Model S T) :
    ∀ (l : List T) (s : S) (n j k : Nat) (e : String),
      runStepsFrom m s l n = Except.error (e, k) → k ≤ n + j →
      runStepsFrom m s (l.take j) n = Except.error (e, k) := by
  intro l
  induction l with
  | nil => intro s n j k e h _; simp [runStepsFrom] at h
  | cons t rest ih =>
    intro s n j k e h hj
    simp only [runStepsFrom] at h
    cases hs : m.step s t with
    | ok s2 =>
      rw [hs] at h
      have hb := runStepsFrom_error_bounds m rest s2 (n + 1) k e h
      cases j with
      | zero => exact absurd hj (by omega)
      | succ j2 =>
        rw [List.take_succ_cons]
        simp only [runStepsFrom, hs]
        exact ih s2 (n + 1) j2 k e h (by omega)
    | error p =>
      rw [hs] at h
      simp only [Except.error.injEq, Prod.mk.injEq] at h
      obtain ⟨he, hk⟩ := h
      cases j with
      | zero => exact absurd hj (by omega)
      | succ j2 =>
        rw [List.take_succ_cons]
        simp only [runStepsFrom, hs]
        rw [he, hk]

/-- The message of a failing run is the extracted payload of a panic the
model's `step` function actually raises. -/
theorem runStepsFrom_error_provenance {S T : Type} (m : Model S T) :
    ∀ (l : List T) (s : S) (n k : Nat) (e : String),
      runStepsFrom m s l n = Except.error (e, k) → IsStepError m e := by
  intro l
  induction l with
  | nil => intro s n k e h; simp [runStepsFrom] at h
  | cons t rest ih =>
    intro s n k e h
    simp only [runStepsFrom] at h
    cases hs : m.step s t with
    | ok s2 =>
      rw [hs] at h
      exact ih s2 (n + 1) k e h
    | error p =>
      rw [hs] at h
      simp only [Except.error.injEq, Prod.mk.injEq] at h
      exact ⟨s, t, p, hs, h.1.symm⟩

/-- `run_steps` error counts: `1 ≤ k ≤ l.length`. -/
theorem run_steps_error_bounds {S T : Type} (m : Model S T) (s : S) (l : List T)
    (e : String) (k : Nat) (h : run_steps m s l = Except.error (e, k)) :
    1 ≤ k ∧ k ≤ l.length := by
  have hb := runStepsFrom_error_bounds m l s 0 k e h
  omega

/-- `run_steps` on a truncation containing the failing step fails the same way. -/
theorem run_steps_take {S T : Type} (m : Model S T) (s : S) (l : List T)
    (e : String) (k j : Nat) (h : run_steps m s l = Except.error (e, k)) (hj : k ≤ j) :
    run_steps m s (l.take j) = Except.error (e, k) :=
  runStepsFrom_take m l s 0 j k e h (by omega)

/-! ## Lemmas about the shrink loop -/

/-- Totality and the cursor invariant of the shrink loop: starting from
cursor `i0` with `i0 + n ≤ length`, the loop never panics, the sequence
never grows, at most `n` elements are removed, and at the end
`cursor + removals = i0 + n` (each iteration either advances the cursor or
removes one element). -/
theorem shrinkLoop_total {S T : Type} (m : Model S T) (s : S) :
    ∀ (n i0 : Nat) (l0 : List T) (e0 : String), i0 + n ≤ l0.length →
      ∃ st2, shrinkLoop m s n ⟨i0, l0, e0⟩ = some st2 ∧
        st2.steps.length ≤ l0.length ∧
        l0.length - st2.steps.length ≤ n ∧
        st2.index + (l0.length - st2.steps.length) = i0 + n := by
  intro n
  induction n with
  | zero =>
    intro i0 l0 e0 h
    refine ⟨⟨i0, l0, e0⟩, rfl, ?_, ?_, ?_⟩ <;> simp
  | succ n2 ih =>
    intro i0 l0 e0 h
    have hlt : i0 < l0.length := by omega
    have hrem : vecRemove l0 i0 = some (l0.eraseIdx i0) := by
      simp [vecRemove, hlt]
    have hlen : (l0.eraseIdx i0).length + 1 = l0.length := by
      rw [List.length_eraseIdx, if_pos hlt]
      omega
    cases hrun : run_steps m s (l0.eraseIdx i0) with
    | ok u =>
      obtain ⟨st2, h1, h2, h3, h4⟩ := ih (i0 + 1) l0 e0 (by omega)
      refine ⟨st2, ?_, h2, by omega, by omega⟩
      simp only [shrinkLoop, shrinkIter, hrem, hrun]
      exact h1
    | error ek =>
      obtain ⟨e2, k2⟩ := ek
      obtain ⟨st2, h1, h2, h3, h4⟩ := ih i0 (l0.eraseIdx i0) e2 (by omega)
      refine ⟨st2, ?_, by omega, by omega, by omega⟩
      simp only [shrinkLoop, shrinkIter, hrem, hrun]
      exact h1

/-- The shrink loop preserves "the working sequence still fails": the
initial working sequence fails, and every accepted candidate failed its
trial by construction. -/
theorem shrinkLoop_preserves_failure {S T : Type} (m : Model S T) (s : S) :
    ∀ (n i0 : Nat) (l0 : List T) (e0 : String) (st2 : ShrinkState T),
      shrinkLoop m s n ⟨i0, l0, e0⟩ = some st2 →
      trialFails m s l0 = true → trialFails m s st2.steps = true := by
  intro n
  induction n with
  | zero =>
    intro i0 l0 e0 st2 h hf
    simp only [shrinkLoop, Option.some.injEq] at h
    subst h
    exact hf
  | succ n2 ih =>
    intro i0 l0 e0 st2 h hf
    cases hrem : vecRemove l0 i0 with
    | none =>
      simp only [shrinkLoop, shrinkIter, hrem] at h
      exact Option.noConfusion h
    | some cand =>
      cases hrun : run_steps m s cand with
      | ok u =>
        simp only [shrinkLoop, shrinkIter, hrem, hrun] at h
        exact ih (i0 + 1) l0 e0 st2 h hf
      | error ek =>
        obtain ⟨e2, k2⟩ := ek
        simp only [shrinkLoop, shrinkIter, hrem, hrun] at h
        refine ih i0 cand e2 st2 h ?_
        simp [trialFails, hrun]

/-- The shrink loop preserves provenance of the recorded error: the final
`last_error` is always the extracted payload of a panic the model's `step`
actually raised. -/
theorem shrinkLoop_error_provenance {S T : Type} (m : Model S T) (s : S) :
    ∀ (n i0 : Nat) (l0 : List T) (e0 : String) (st2 : ShrinkState T),
      shrinkLoop m s n ⟨i0, l0, e0⟩ = some st2 →
      IsStepError m e0 → IsStepError m st2.last_error := by
  intro n
  induction n with
  | zero =>
    intro i0 l0 e0 st2 h he
    simp only [shrinkLoop, Option.some.injEq] at h
    subst h
    exact he
  | succ n2 ih =>
    intro i0 l0 e0 st2 h he
    cases hrem : vecRemove l0 i0 with
    | none =>
      simp only [shrinkLoop, shrinkIter, hrem] at h
      exact Option.noConfusion h
    | some cand =>
      cases hrun : run_steps m s cand with
      | ok u =>
        simp only [shrinkLoop, shrinkIter, hrem, hrun] at h
        exact ih (i0 + 1) l0 e0 st2 h he
      | error ek =>
        obtain ⟨e2, k2⟩ := ek
        simp only [shrinkLoop, shrinkIter, hrem, hrun] at h
        exact ih i0 cand e2 st2 h (runStepsFrom_error_provenance m cand s 0 k2 e2 hrun)

/-- The final working sequence is a sublist (order-preserving subsequence)
of the initial one: each iteration keeps or `eraseIdx`-removes. -/
theorem shrinkLoop_sublist {S T : Type} (m : Model S T) (s : S) :
    ∀ (n i0 : Nat) (l0 : List T) (e0 : String) (st2 : ShrinkState T),
      shrinkLoop m s n ⟨i0, l0, e0⟩ = some st2 → List.Sublist st2.steps l0 := by
  intro n
  induction n with
  | zero =>
    intro i0 l0 e0 st2 h
    simp only [shrinkLoop, Option.some.injEq] at h
    subst h
    exact List.Sublist.refl l0
  | succ n2 ih =>
    intro i0 l0 e0 st2 h
    cases hrem : vecRemove l0 i0 with
    | none =>
      simp only [shrinkLoop, shrinkIter, hrem] at h
      exact Option.noConfusion h
    | some cand =>
      have hsub : List.Sublist cand l0 := by
        have hc2 : cand = l0.eraseIdx i0 := by
          by_cases hc : i0 < l0.length
          · have hrem2 := hrem
            simp [vecRemove, hc] at hrem2
            exact hrem2.symm
          · simp [vecRemove, hc] at hrem
        rw [hc2]
        exact List.eraseIdx_sublist l0 i0
      cases hrun : run_steps m s cand with
      | ok u =>
        simp only [shrinkLoop, shrinkIter, hrem, hrun] at h
        exact ih (i0 + 1) l0 e0 st2 h
      | error ek =>
        obtain ⟨e2, k2⟩ := ek
        simp only [shrinkLoop, shrinkIter, hrem, hrun] at h
        exact List.Sublist.trans (ih i0 cand e2 st2 h) hsub

/-- Inversion of `run` on the failure path: the first trial failed at count
`k`, the shrink loop ran on the first `k + 1` steps and produced the
returned `FailedState` from the original initial state. -/
theorem run_error_elim {S T : Type} (m : Model S T) (s : S) (l : List T)
    (fs : FailedState S T) (h : run m s l = some (Except.error fs)) :
    ∃ e k st, run_steps m s l = Except.error (e, k) ∧
      shrinkLoop m s ((l.take (k + 1)).length) ⟨0, l.take (k + 1), e⟩ = some st ∧
      fs.state = s ∧ fs.steps = st.steps ∧ fs.error = st.last_error := by
  cases hr : run_steps m s l with
  | ok u => simp [run, hr] at h
  | error ek =>
    obtain ⟨e, k⟩ := ek
    simp only [run, hr] at h
    by_cases hemp : (l.take (k + 1)).isEmpty = true
    · rw [if_pos hemp] at h; simp at h
    · rw [if_neg hemp] at h
      cases hsl : shrinkLoop m s ((l.take (k + 1)).length) ⟨0, l.take (k + 1), e⟩ with
      | none => rw [hsl] at h; simp at h
      | some st =>
        rw [hsl] at h
        simp only [Option.some.injEq, Except.error.injEq] at h
        exact ⟨e, k, st, rfl, hsl, by rw [← h], by rw [← h], by rw [← h]⟩

/-! ## Claim theorems -/

/-- C1: Determinism of replay. For every `FailedState` returned by
`ModelChecker::run`, re-running the stored step sequence (`run_steps`)
against a fresh clone of the stored initial state produces a failure again.
In this embedding the step function is a Lean function, so the claim's
determinism hypothesis holds by construction; cloning is the identity on
pure values. -/
theorem replay_reproduces_failure {S T : Type} (m : Model S T) (s : S) (l : List T)
    (fs : FailedState S T) (h : run m s l = some (Except.error fs)) :
    ∃ e2 k2, run_steps m fs.state fs.steps = Except.error (e2, k2) := by
  obtain ⟨e, k, st, hr, hsl, hstate, hsteps, herr⟩ := run_error_elim m s l fs h
  have htr : run_steps m s (l.take (k + 1)) = Except.error (e, k) :=
    run_steps_take m s l e k (k + 1) hr (by omega)
  have hf : trialFails m s (l.take (k + 1)) = true := by
    simp [trialFails, htr]
  have hf2 := shrinkLoop_preserves_failure m s ((l.take (k + 1)).length) 0
    (l.take (k + 1)) e st hsl hf
  rw [hstate, hsteps]
  cases hrr : run_steps m s st.steps with
  | ok u => simp [trialFails, hrr] at hf2
  | error ek =>
    obtain ⟨e3, k3⟩ := ek
    exact ⟨e3, k3, rfl⟩

/-- Witness for C1 at the crate's boolean test model on the one-step
sequence `[false]`. -/
theorem replay_reproduces_failure_witness :
    ∃ e2 k2, run_steps testModel () [false] = Except.error (e2, k2) :=
  replay_reproduces_failure testModel () [false]
    ⟨(), [false], "assertion failed: step.0"⟩ rfl

/-- C2 counterexample: the claim says the working sequence is truncated to
its first `k` elements (`k` the 1-based applied-step count reported by
`run_steps`, here `k = 1`) and that steps beyond index `k` never appear in
any shrink candidate. In the code `steps.truncate(failed_step + 1)` keeps
`k + 1` elements, so the step `1` — at 0-based index 1, beyond the first
`k = 1` elements — enters the shrink candidates and here even survives into
the returned `FailedState`, whose step sequence `[1]` is disjoint from the
first `k` elements `[0]`. -/
theorem truncation_counterexample :
    run_steps badModel2 ([] : List Nat) [0, 1] = Except.error ("bad", 1) ∧
      run badModel2 [] [0, 1] = some (Except.error ⟨[], [1], "bad"⟩) ∧
      ([0, 1] : List Nat).take 1 = [0] ∧
      (1 : Nat) ∈ (⟨([] : List Nat), [1], "bad"⟩ : FailedState (List Nat) Nat).steps ∧
      (1 : Nat) ∉ ([0] : List Nat) := by
  refine ⟨rfl, rfl, rfl, ?_, ?_⟩ <;> decide

/-- C2 as amended: the working sequence is truncated to the first `k + 1`
elements of the generated sequence (one element past the failing step, when
one exists), and no step beyond that truncated prefix ever appears in a
shrink candidate or in the returned report: the returned step sequence is a
sublist of `steps0.take (k + 1)`. -/
theorem truncation_keeps_failing_steps {S T : Type} (m : Model S T) (s : S) (l : List T)
    (fs : FailedState S T) (e : String) (k : Nat)
    (h : run m s l = some (Except.error fs))
    (hk : run_steps m s l = Except.error (e, k)) :
    List.Sublist fs.steps (l.take (k + 1)) := by
  obtain ⟨e2, k2, st, hr, hsl, hstate, hsteps, herr⟩ := run_error_elim m s l fs h
  rw [hk] at hr
  simp only [Except.error.injEq, Prod.mk.injEq] at hr
  obtain ⟨he, hkk⟩ := hr
  rw [hsteps, hkk]
  exact shrinkLoop_sublist m s ((l.take (k2 + 1)).length) 0 (l.take (k2 + 1)) e2 st hsl

/-- Witness for the amended C2: `[true, false]` fails at count 2; the
report's steps `[false]` are a sublist of `take 3 [true, false]`. -/
theorem truncation_keeps_failing_steps_witness :
    List.Sublist [false] (List.take (2 + 1) [true, false]) :=
  truncation_keeps_failing_steps testModel () [true, false]
    ⟨(), [false], "assertion failed: step.0"⟩ "assertion failed: step.0" 2 rfl rfl

/-- C3: Concrete scenario. For the crate's boolean test model (whose `step`
asserts the step's boolean), every session with `max_steps = 3` whose
generated sequence contains at least one `false` returns a `FailedState`
whose step sequence is exactly the single step `[false]` (and whose error is
the assertion message). -/
theorem concrete_boolean_scenario (b1 b2 b3 : Bool)
    (h : b1 = false ∨ b2 = false ∨ b3 = false) :
    run testModel () [b1, b2, b3] =
      some (Except.error ⟨(), [false], "assertion failed: step.0"⟩) := by
  cases b1 <;> cases b2 <;> cases b3 <;> first | rfl | simp at h

/-- Witness for C3 at the sequence `[false, true, true]`. -/
theorem concrete_boolean_scenario_witness :
    run testModel () [false, true, true] =
      some (Except.error ⟨(), [false], "assertion failed: step.0"⟩) :=
  concrete_boolean_scenario false true true (Or.inl rfl)

/-- C4: The engine never raises. `none` models every engine-side panic: an
uncaught panic from the user's step function (impossible: `run_steps` routes
every `step` panic into `Except.error`), a failure of
`assert!(!steps.is_empty())`, and an out-of-bounds `Vec::remove`. `run`
always returns `some` — an `Ok` or an `Err (FailedState ..)` — so the
assertion holds (`k ≥ 1` forces a non-empty truncation) and the shrink
loop's removals are always in bounds. -/
theorem run_never_panics {S T : Type} (m : Model S T) (s : S) (l : List T) :
    (run m s l).isSome = true := by
  cases hr : run_steps m s l with
  | ok u => simp [run, hr]
  | error ek =>
    obtain ⟨e, k⟩ := ek
    have hb := run_steps_error_bounds m s l e k hr
    have hne : (l.take (k + 1)).isEmpty = false := by
      cases l with
      | nil =>
        simp only [List.length_nil] at hb
        exact absurd hb (by omega)
      | cons a as => rw [List.take_succ_cons]; rfl
    obtain ⟨st, hsl, h2, h3, h4⟩ := shrinkLoop_total m s ((l.take (k + 1)).length) 0
      (l.take (k + 1)) e (by omega)
    simp only [run, hr, hne, Bool.false_eq_true, if_false, hsl, Option.isSome_some]

/-- C5 counterexample: the single-pass removal algorithm is not idempotent.
With `badModel3`, a session on the generated sequence `[0, 1, 2]` returns
the minimized sequence `[0, 2]`, but running the same single pass again on
`[0, 2]` (iteration count fixed to its length, 2, cursor starting at 0)
removes a further element and ends with the strictly shorter working
sequence `[2]`. -/
theorem shrink_pass_not_fixed_point :
    run badModel3 [] [0, 1, 2] = some (Except.error ⟨[], [0, 2], "bad"⟩) ∧
      shrinkLoop badModel3 [] ([0, 2] : List Nat).length ⟨0, [0, 2], "bad"⟩ =
        some ⟨1, [2], "bad"⟩ ∧
      ([2] : List Nat).length < ([0, 2] : List Nat).length :=
  ⟨rfl, rfl, by decide⟩

/-- C5 as amended: a second single pass (iteration count fixed to the input
sequence's length) need not leave the minimized sequence unchanged — it may
shrink it further — but it never grows it and its result still reproduces a
failure whenever its input does. -/
theorem shrink_pass_nongrowth_preserves_failure {S T : Type} (m : Model S T) (s : S)
    (l : List T) (e : String) (st2 : ShrinkState T)
    (h : shrinkLoop m s l.length ⟨0, l, e⟩ = some st2)
    (hf : trialFails m s l = true) :
    st2.steps.length ≤ l.length ∧ trialFails m s st2.steps = true :=
  ⟨(shrinkLoop_sublist m s l.length 0 l e st2 h).length_le,
    shrinkLoop_preserves_failure m s l.length 0 l e st2 h hf⟩

/-- Witness for the amended C5: the second pass on `[0, 2]` returns `[2]`,
which is no longer and still fails. -/
theorem shrink_pass_nongrowth_witness :
    ([2] : List Nat).length ≤ ([0, 2] : List Nat).length ∧
      trialFails badModel3 [] [2] = true :=
  shrink_pass_nongrowth_preserves_failure badModel3 [] [0, 2] "bad" ⟨1, [2], "bad"⟩ rfl rfl

/-- C6: Non-growth of the shrunk sequence. For every failing session the
returned step sequence is no longer than the truncated post-failure
sequence, which is no longer than the generated sequence (whose length is
`max_steps`). Each loop iteration either removes exactly one element or
leaves the sequence unchanged (`shrinkLoop_total`), so no operation ever
lengthens it. -/
theorem shrunk_length_le {S T : Type} (m : Model S T) (s : S) (l : List T)
    (fs : FailedState S T) (e : String) (k : Nat)
    (h : run m s l = some (Except.error fs))
    (hk : run_steps m s l = Except.error (e, k)) :
    fs.steps.length ≤ (l.take (k + 1)).length ∧ (l.take (k + 1)).length ≤ l.length := by
  constructor
  · obtain ⟨e2, k2, st, hr, hsl, hstate, hsteps, herr⟩ := run_error_elim m s l fs h
    rw [hk] at hr
    simp only [Except.error.injEq, Prod.mk.injEq] at hr
    obtain ⟨he, hkk⟩ := hr
    rw [hsteps, hkk]
    exact (shrinkLoop_sublist m s ((l.take (k2 + 1)).length) 0 (l.take (k2 + 1)) e2 st
      hsl).length_le
  · rw [List.length_take]
    omega

/-- Witness for C6 on `[true, false]`: `1 ≤ 2 ∧ 2 ≤ 2`. -/
theorem shrunk_length_le_witness :
    ([false] : List Bool).length ≤ (([true, false] : List Bool).take (2 + 1)).length ∧
      (([true, false] : List Bool).take (2 + 1)).length ≤ ([true, false] : List Bool).length :=
  shrunk_length_le testModel () [true, false] ⟨(), [false], "assertion failed: step.0"⟩
    "assertion failed: step.0" 2 rfl rfl

/-- C7: Boundary. With `max_steps = 0` the generated candidate sequence is
empty, the trial trivially succeeds, and `run` returns `Ok` — never a
`FailedState`, for every model and every generator state, and the shrink
phase is never entered. -/
theorem max_steps_zero_ok {σ S T : Type} (m : Model S T) (rg : Rng σ S T) (r : σ) :
    (runSession m rg r 0).1 = some (Except.ok ()) := rfl

/-- C8: Success path purity. If the trial on the full generated sequence
succeeds, `run` returns `Ok` immediately, and the whole session performs
exactly one `run_steps` invocation (zero shrink-phase trials), as the
instrumented `runC` counts. -/
theorem success_path_single_trial {S T : Type} (m : Model S T) (s : S) (l : List T)
    (h : run_steps m s l = Except.ok ()) :
    run m s l = some (Except.ok ()) ∧ runC m s l = some (Except.ok (), 1) := by
  constructor
  · simp [run, h]
  · simp [runC, h]

/-- Witness for C8 on the succeeding sequence `[true]`. -/
theorem success_path_single_trial_witness :
    run testModel () [true] = some (Except.ok ()) ∧
      runC testModel () [true] = some (Except.ok (), 1) :=
  success_path_single_trial testModel () [true] rfl

/-- C9: Unreadable failure payload. Every error message surfaced in a
`FailedState` is `extract_panic_payload` of a payload the model's `step`
actually raises: when that payload is neither a `&str` nor a `String` the
message is exactly the placeholder `"UNABLE TO SHOW RESULT OF PANIC."`, and
when it is a `&str` or `String` the message equals the carried string. The
session returns the `FailedState` rather than failing (totality is
`run_never_panics`). -/
theorem panic_message_surfaced {S T : Type} (m : Model S T) (s : S) (l : List T)
    (fs : FailedState S T) (h : run m s l = some (Except.error fs)) :
    ∃ s2 t p, m.step s2 t = Except.error p ∧ fs.error = extract_panic_payload p ∧
      (p = Payload.other → fs.error = "UNABLE TO SHOW RESULT OF PANIC.") ∧
      (∀ msg, p = Payload.str msg → fs.error = msg) ∧
      (∀ msg, p = Payload.string msg → fs.error = msg) := by
  obtain ⟨e, k, st, hr, hsl, hstate, hsteps, herr⟩ := run_error_elim m s l fs h
  have h1 : IsStepError m e := runStepsFrom_error_provenance m l s 0 k e hr
  have h2 : IsStepError m st.last_error :=
    shrinkLoop_error_provenance m s ((l.take (k + 1)).length) 0 (l.take (k + 1)) e st hsl h1
  obtain ⟨s2, t, p, hstep, hmsg⟩ := h2
  refine ⟨s2, t, p, hstep, by rw [herr, hmsg], ?_, ?_, ?_⟩
  · intro hp; rw [herr, hmsg, hp]; rfl
  · intro msg hp; rw [herr, hmsg, hp]; rfl
  · intro msg hp; rw [herr, hmsg, hp]; rfl

/-- Witness for C9: a model panicking with a payload that is neither `&str`
nor `String` surfaces exactly the placeholder message. -/
theorem panic_message_surfaced_witness :
    ∃ s2 t p, otherPanicModel.step s2 t = Except.error p ∧
      "UNABLE TO SHOW RESULT OF PANIC." = extract_panic_payload p ∧
      (p = Payload.other → "UNABLE TO SHOW RESULT OF PANIC." = "UNABLE TO SHOW RESULT OF PANIC.") ∧
      (∀ msg, p = Payload.str msg → "UNABLE TO SHOW RESULT OF PANIC." = msg) ∧
      (∀ msg, p = Payload.string msg → "UNABLE TO SHOW RESULT OF PANIC." = msg) :=
  panic_message_surfaced otherPanicModel () [false]
    ⟨(), [false], "UNABLE TO SHOW RESULT OF PANIC."⟩ rfl

/-- C10 (implicit): the shrink loop's cursor invariant. Starting from cursor
0 with iteration count equal to the sequence's length, the loop always
completes (`some`, i.e. `Vec::remove` is always in bounds — a `none` would
model its out-of-bounds panic), each iteration contributes either a cursor
advance or exactly one removal (`cursor + removals = iterations`), and at
the end the cursor equals the final length: the cursor never exceeds the
working sequence's length while an element is removed. -/
theorem shrink_remove_inbounds {S T : Type} (m : Model S T) (s : S) (l : List T) (e : String) :
    ∃ st2, shrinkLoop m s l.length ⟨0, l, e⟩ = some st2 ∧
      st2.index + (l.length - st2.steps.length) = l.length ∧
      st2.index = st2.steps.length ∧
      st2.steps.length ≤ l.length := by
  obtain ⟨st2, h1, h2, h3, h4⟩ := shrinkLoop_total m s l.length 0 l e (by omega)
  exact ⟨st2, h1, by omega, by omega, h2⟩

end ModelCheck
